import Mathlib

/-!
Verification of the notification auto-dismiss script (src/static/static/main.js).

The script registers a single DOMContentLoaded listener.  The listener queries
`document.querySelectorAll('.alert')` and, for each matched element whose class
list does not contain the token `alert-danger`, calls
`setTimeout(fn, 4000)` where `fn` runs
`try { var bs = bootstrap.Alert.getOrCreateInstance(el); bs.close(); } catch(e){}`.

Shallow embedding:
* an `Element` is an identity plus its class-attribute token list;
* a `Document` is the ordered list of elements in the page;
* `domContentLoadedHandler` is the ready listener: it returns the list of
  one-shot timers it registers via `setTimeout`;
* firing timers is modelled by `runLoop` / `fireDue`, parameterised by an
  environment `Env` that says, per element, whether
  `bootstrap.Alert.getOrCreateInstance` or `bs.close()` throws;
* the page lifetime (ready event, later element insertions) is a trace of
  `PageEvent`s folded over by `runTrace`.
-/

/-- A DOM element: a node identity and its class-attribute token list
(the `classList`). -/
structure Element where
  id : Nat
  classes : List String
deriving DecidableEq, Repr

/-- A document: the page's elements in document order. -/
abbrev Document := List Element

/-- `el.classList.contains c`: exact-token membership in the class list. -/
def Element.classListContains (el : Element) (c : String) : Bool :=
  el.classes.contains c

/-- `document.querySelectorAll('.cls')`: all elements whose class list holds
the exact token `cls`, in document order. -/
def querySelectorAll (doc : Document) (cls : String) : List Element :=
  doc.filter (fun el => el.classListContains cls)

/-- A pending one-shot timer registered by `setTimeout`: the element the
callback closed over, the clock value when `setTimeout` was called, and the
requested delay. -/
structure Timer where
  elem : Element
  scheduledAt : Nat
  delay : Nat
deriving DecidableEq, Repr

/-- The instant a pending timer fires. -/
def Timer.fireAt (t : Timer) : Nat := t.scheduledAt + t.delay

/-- The DOMContentLoaded listener body (main.js lines 2-11): iterate over
`querySelectorAll('.alert')`; for each element not carrying `alert-danger`,
register a 4000-unit one-shot timer.  The handler runs synchronously, so every
`setTimeout` call happens at the same clock value `now` (the ready instant).
Returns the registered timers in registration order. -/
def domContentLoadedHandler (doc : Document) (now : Nat) : List Timer :=
  (querySelectorAll doc "alert").filterMap (fun el =>
    if !(el.classListContains "alert-danger") then
      some { elem := el, scheduledAt := now, delay := 4000 }
    else
      none)

/-- The elements for which the ready handler registered a timer. -/
def scheduledElems (doc : Document) (now : Nat) : List Element :=
  (domContentLoadedHandler doc now).map (fun t => t.elem)

/-- Fault environment for the timer callback's `try` body: per element, does
`bootstrap.Alert.getOrCreateInstance(el)` throw, and does `bs.close()` throw
(e.g. because the node was already removed or the framework is absent). -/
structure Env where
  getOrCreateThrows : Element → Bool
  closeThrows : Element → Bool

/-- The `try` body `var bs = bootstrap.Alert.getOrCreateInstance(el); bs.close();`:
returns the list of close invocations `el` received and whether the body threw.
If `getOrCreateInstance` throws, `bs.close()` is never reached. -/
def tryBody (env : Env) (el : Element) : List Element × Bool :=
  if env.getOrCreateThrows el then ([], true)
  else ([el], env.closeThrows el)

/-- The whole `setTimeout` callback: the `try` body wrapped in `catch(e){}`.
The second component is whether an exception propagates out of the callback;
the `catch` clause discards any exception, so it is always `false`. -/
def timerCallback (env : Env) (el : Element) : List Element × Bool :=
  ((tryBody env el).1, false)

/-- Outcome of draining a queue of fired timers: which callbacks ran (in
order), which close invocations happened, and whether the loop was halted by
an exception escaping a callback. -/
structure RunResult where
  processed : List Element
  closeCalls : List Element
  halted : Bool
deriving DecidableEq, Repr

/-- Drain a list of fired timers on the single-threaded event loop.  Each
callback runs as one non-preemptible task; if an exception escaped a callback,
the remaining tasks would be abandoned (`halted := true`). -/
def runLoop (env : Env) : List Timer → RunResult
  | [] => { processed := [], closeCalls := [], halted := false }
  | t :: rest =>
    let r := timerCallback env t.elem
    if r.2 then
      { processed := [t.elem], closeCalls := r.1, halted := true }
    else
      let rest2 := runLoop env rest
      { processed := t.elem :: rest2.processed
        closeCalls := r.1 ++ rest2.closeCalls
        halted := rest2.halted }

/-- Advance the clock to `now` and run every pending timer that is due. -/
def fireDue (env : Env) (timers : List Timer) (now : Nat) : RunResult :=
  runLoop env (timers.filter (fun t => t.fireAt ≤ now))

/-- Like `fireDue`, but also given the fire-time class state of the page
(element id ↦ class tokens after any post-ready mutation).  The `setTimeout`
callback closes over the element reference captured at ready time and never
re-reads `classList`, so the fire-time class state is not consulted. -/
def fireDueInDoc (env : Env) (timers : List Timer)
    (_classesNow : Nat → List String) (now : Nat) : RunResult :=
  fireDue env timers now

/-- Events observable by the script during the page's lifetime: the
document-ready event, and an element being appended by other page logic. -/
inductive PageEvent where
  | domContentLoaded : PageEvent
  | addElement : Element → PageEvent
deriving DecidableEq, Repr

/-- The script's view of the page: the current document and the timers the
script has registered so far. -/
structure ScriptState where
  doc : Document
  timers : List Timer
deriving DecidableEq, Repr

/-- One page event, timestamped.  The script only registered a
DOMContentLoaded listener, so only that event runs script code; an element
appended later merely grows the document. -/
def stepEvent (st : ScriptState) : Nat × PageEvent → ScriptState
  | (now, PageEvent.domContentLoaded) =>
      { st with timers := st.timers ++ domContentLoadedHandler st.doc now }
  | (_, PageEvent.addElement el) =>
      { st with doc := st.doc ++ [el] }

/-- Fold a timestamped event trace over the script state. -/
def runTrace (st : ScriptState) (tr : List (Nat × PageEvent)) : ScriptState :=
  tr.foldl stepEvent st

/-- The three-alert demo page of the spec's concrete scenario. -/
def demoA : Element := { id := 0, classes := ["alert"] }

def demoB : Element := { id := 1, classes := ["alert", "alert-danger"] }

def demoC : Element := { id := 2, classes := ["alert"] }

def demoDoc : Document := [demoA, demoB, demoC]

/-- Environment in which no widget call throws. -/
def benignEnv : Env := { getOrCreateThrows := fun _ => false, closeThrows := fun _ => false }

/-- Structural characterisation of the ready handler's output: a timer is
registered exactly for the elements of the document that carry the `alert`
token and not the `alert-danger` token, scheduled at the ready instant with
delay 4000. -/
lemma mem_handler {doc : Document} {now : Nat} {t : Timer} :
    t ∈ domContentLoadedHandler doc now ↔
      t.elem ∈ doc ∧ t.elem.classListContains "alert" = true
        ∧ t.elem.classListContains "alert-danger" = false
        ∧ t.scheduledAt = now ∧ t.delay = 4000 := by
  obtain ⟨e, s, d⟩ := t
  unfold domContentLoadedHandler querySelectorAll
  rw [List.mem_filterMap]
  constructor
  · rintro ⟨el, hmem, hf⟩
    rw [List.mem_filter] at hmem
    by_cases hd : el.classListContains "alert-danger"
    · simp [hd] at hf
    · rw [Bool.not_eq_true] at hd
      simp only [hd, Bool.not_false, if_true, Option.some.injEq, Timer.mk.injEq] at hf
      obtain ⟨rfl, rfl, rfl⟩ := hf
      exact ⟨hmem.1, hmem.2, hd, rfl, rfl⟩
  · rintro ⟨hmem, halert, hdanger, rfl, rfl⟩
    refine ⟨e, List.mem_filter.mpr ⟨hmem, halert⟩, ?_⟩
    simp [hdanger]

/-- Registration for a single cons cell of the document. -/
lemma handler_cons (a : Element) (l : Document) (now : Nat) :
    domContentLoadedHandler (a :: l) now =
      (if a.classListContains "alert" && !(a.classListContains "alert-danger")
        then [{ elem := a, scheduledAt := now, delay := 4000 }] else [])
      ++ domContentLoadedHandler l now := by
  unfold domContentLoadedHandler querySelectorAll
  rw [List.filter_cons]
  by_cases h1 : a.classListContains "alert"
  · by_cases h2 : a.classListContains "alert-danger" <;>
      simp [h1, h2, List.filterMap_cons]
  · simp [h1]

/-- The number of timers registered for a given element equals the number of
occurrences of that element in the document that are eligible. -/
lemma countP_handler (doc : Document) (now : Nat) (el : Element) :
    (domContentLoadedHandler doc now).countP (fun t => t.elem == el)
      = doc.countP (fun e =>
          (e == el) &&
            (e.classListContains "alert" && !(e.classListContains "alert-danger"))) := by
  induction doc with
  | nil => rfl
  | cons a l ih =>
    rw [handler_cons, List.countP_append, List.countP_cons, ih]
    by_cases h : (a.classListContains "alert" && !(a.classListContains "alert-danger")) = true
    · by_cases he : (a == el) = true <;>
        simp [h, he, List.countP_cons] <;> omega
    · rw [Bool.not_eq_true] at h
      simp [h]

/-- In a duplicate-free list containing `el`, counting the entries equal to
`el` that also satisfy `q` gives 1 when `q el` holds. -/
lemma countP_eq_one_of_nodup (doc : List Element) (el : Element) (q : Element → Bool)
    (hnd : doc.Nodup) (hmem : el ∈ doc) (hq : q el = true) :
    doc.countP (fun e => (e == el) && q e) = 1 := by
  induction doc with
  | nil => cases hmem
  | cons a l ih =>
    rcases List.nodup_cons.mp hnd with ⟨ha, hl⟩
    rw [List.countP_cons]
    rcases List.mem_cons.mp hmem with rfl | hmem2
    · have hzero : l.countP (fun e => (e == el) && q e) = 0 := by
        rw [List.countP_eq_zero]
        intro e he
        simp only [Bool.and_eq_true, beq_iff_eq, not_and]
        intro heq
        exact absurd (heq ▸ he) ha
      simp [hzero, hq]
    · have hne : (a == el) = false := by
        rw [beq_eq_false_iff_ne]
        intro heq
        exact ha (heq ▸ hmem2)
      simp [hne, ih hl hmem2]

/-- The event loop drains every fired timer and never halts: the `catch`
clause keeps any exception inside its own callback. -/
lemma runLoop_halted_false (env : Env) (timers : List Timer) :
    (runLoop env timers).halted = false := by
  induction timers with
  | nil => rfl
  | cons t rest ih => simpa [runLoop, timerCallback] using ih

/-- Every fired timer's callback runs, in order, whatever the environment. -/
lemma runLoop_processed (env : Env) (timers : List Timer) :
    (runLoop env timers).processed = timers.map (fun t => t.elem) := by
  induction timers with
  | nil => rfl
  | cons t rest ih => simp [runLoop, timerCallback, ih]

lemma runTrace_cons (st : ScriptState) (p : Nat × PageEvent)
    (rest : List (Nat × PageEvent)) :
    runTrace st (p :: rest) = runTrace (stepEvent st p) rest := rfl

lemma runTrace_append_tr (st : ScriptState) (tr1 tr2 : List (Nat × PageEvent)) :
    runTrace st (tr1 ++ tr2) = runTrace (runTrace st tr1) tr2 :=
  List.foldl_append stepEvent st tr1 tr2

/-- Events other than the ready event never register a timer: the script wired
no other listener and no mutation observer. -/
lemma runTrace_timers_of_no_ready (st : ScriptState) (tr : List (Nat × PageEvent))
    (h : ∀ p ∈ tr, p.2 ≠ PageEvent.domContentLoaded) :
    (runTrace st tr).timers = st.timers := by
  induction tr generalizing st with
  | nil => rfl
  | cons p rest ih =>
    rw [runTrace_cons]
    have hp := h p (List.mem_cons_self p rest)
    have hrest : ∀ q ∈ rest, q.2 ≠ PageEvent.domContentLoaded :=
      fun q hq => h q (List.mem_cons_of_mem p hq)
    obtain ⟨n, ev⟩ := p
    cases ev with
    | domContentLoaded => exact absurd rfl hp
    | addElement el =>
      rw [ih _ hrest]
      rfl

/-- Registered timers are never removed: the script keeps no `setTimeout`
handle and calls no `clearTimeout`. -/
lemma runTrace_timers_mono (st : ScriptState) (tr : List (Nat × PageEvent)) :
    ∃ extra, (runTrace st tr).timers = st.timers ++ extra := by
  induction tr generalizing st with
  | nil => exact ⟨[], (List.append_nil _).symm⟩
  | cons p rest ih =>
    rw [runTrace_cons]
    obtain ⟨extra, hextra⟩ := ih (stepEvent st p)
    obtain ⟨n, ev⟩ := p
    cases ev with
    | domContentLoaded =>
      refine ⟨domContentLoadedHandler st.doc n ++ extra, ?_⟩
      rw [hextra]
      simp [stepEvent]
    | addElement el =>
      exact ⟨extra, by rw [hextra]; rfl⟩

/-- The count of close invocations delivered by `runLoop` in a benign
environment: one per fired timer element. -/
lemma runLoop_benign_closeCalls (timers : List Timer) :
    (runLoop benignEnv timers).closeCalls = timers.map (fun t => t.elem) := by
  induction timers with
  | nil => rfl
  | cons t rest ih =>
    simp only [benignEnv] at ih ⊢
    simp [runLoop, timerCallback, tryBody, ih]

/-- C1: every element matching the alert selector that does not carry the
danger marker at ready time gets exactly one timer registered inside the ready
handler, scheduled at the ready instant and firing exactly 4000 time units
after the moment it was scheduled (its own timer, not a shared page-load
deadline). -/
theorem c1_each_nondanger_alert_gets_one_independent_timer
    (doc : Document) (now : Nat) (el : Element)
    (hnd : doc.Nodup)
    (hmem : el ∈ querySelectorAll doc "alert")
    (hdanger : el.classListContains "alert-danger" = false) :
    (domContentLoadedHandler doc now).countP (fun t => t.elem == el) = 1
    ∧ ∀ t ∈ domContentLoadedHandler doc now,
        t.elem = el → t.scheduledAt = now ∧ t.fireAt = t.scheduledAt + 4000 := by
  rw [querySelectorAll, List.mem_filter] at hmem
  constructor
  · rw [countP_handler]
    exact countP_eq_one_of_nodup doc el
      (fun e => e.classListContains "alert" && !(e.classListContains "alert-danger"))
      hnd hmem.1 (by simp [hmem.2, hdanger])
  · intro t ht _
    rcases mem_handler.mp ht with ⟨-, -, -, hsched, hdelay⟩
    exact ⟨hsched, by rw [Timer.fireAt, hdelay]⟩

theorem c1_witness :
    ([({ id := 0, classes := ["alert"] } : Element)].Nodup
      ∧ ({ id := 0, classes := ["alert"] } : Element)
          ∈ querySelectorAll [{ id := 0, classes := ["alert"] }] "alert"
      ∧ ({ id := 0, classes := ["alert"] } : Element).classListContains "alert-danger"
          = false)
    ∧ ((domContentLoadedHandler [{ id := 0, classes := ["alert"] }] 7).countP
          (fun t => t.elem == { id := 0, classes := ["alert"] }) = 1
        ∧ ∀ t ∈ domContentLoadedHandler [{ id := 0, classes := ["alert"] }] 7,
            t.elem = { id := 0, classes := ["alert"] } →
              t.scheduledAt = 7 ∧ t.fireAt = t.scheduledAt + 4000) :=
  ⟨⟨by decide, by decide, by decide⟩,
    c1_each_nondanger_alert_gets_one_independent_timer
      [{ id := 0, classes := ["alert"] }] 7 { id := 0, classes := ["alert"] }
      (by decide) (by decide) (by decide)⟩

/-- C2: an alert element carrying the danger marker at ready time is never
scheduled: no timer registered by the ready handler targets it. -/
theorem c2_danger_alert_never_scheduled
    (doc : Document) (now : Nat) (el : Element)
    (hdanger : el.classListContains "alert-danger" = true) :
    ∀ t ∈ domContentLoadedHandler doc now, t.elem ≠ el := by
  intro t ht heq
  rcases mem_handler.mp ht with ⟨-, -, hfalse, -, -⟩
  rw [heq, hdanger] at hfalse
  cases hfalse

theorem c2_witness :
    (demoB.classListContains "alert-danger" = true)
    ∧ ∀ t ∈ domContentLoadedHandler demoDoc 0, t.elem ≠ demoB :=
  ⟨by decide, c2_danger_alert_never_scheduled demoDoc 0 demoB (by decide)⟩

/-- C3: whatever throws inside a timer callback (obtaining the widget
controller or invoking close), the exception is caught at the point of
occurrence: no callback lets it escape, the loop is never halted, and every
scheduled callback still runs. -/
theorem c3_errors_contained_per_callback (env : Env) (timers : List Timer) :
    (∀ el, (timerCallback env el).2 = false)
    ∧ (runLoop env timers).halted = false
    ∧ (runLoop env timers).processed = timers.map (fun t => t.elem) :=
  ⟨fun _ => rfl, runLoop_halted_false env timers, runLoop_processed env timers⟩

/-- C4: in any page run where the ready event fires first and the remaining
events are only element insertions, an element absent from the document at
ready time is never targeted by a registered timer — the document is queried
once, inside the ready handler, and nothing watches later mutations. -/
theorem c4_late_elements_never_scheduled
    (initDoc : Document) (r t' : Nat) (rest : List (Nat × PageEvent)) (el : Element)
    (hnoready : ∀ p ∈ rest, p.2 ≠ PageEvent.domContentLoaded)
    (hadded : ((t', PageEvent.addElement el)) ∈ rest)
    (hnew : el ∉ initDoc) :
    ∀ t ∈ (runTrace { doc := initDoc, timers := [] }
              ((r, PageEvent.domContentLoaded) :: rest)).timers,
      t.elem ≠ el := by
  intro t ht heq
  rw [runTrace_cons, runTrace_timers_of_no_ready _ _ hnoready] at ht
  simp only [stepEvent, List.nil_append] at ht
  rcases mem_handler.mp ht with ⟨hmem, -, -, -, -⟩
  rw [heq] at hmem
  exact hnew hmem

theorem c4_witness :
    ((∀ p ∈ [((6 : Nat), PageEvent.addElement demoA)],
        p.2 ≠ PageEvent.domContentLoaded)
      ∧ ((6 : Nat), PageEvent.addElement demoA)
          ∈ [((6 : Nat), PageEvent.addElement demoA)]
      ∧ demoA ∉ ([demoB] : Document))
    ∧ ∀ t ∈ (runTrace { doc := [demoB], timers := [] }
                ((2, PageEvent.domContentLoaded)
                  :: [((6 : Nat), PageEvent.addElement demoA)])).timers,
        t.elem ≠ demoA :=
  ⟨⟨by decide, by decide, by decide⟩,
    c4_late_elements_never_scheduled [demoB] 2 6
      [((6 : Nat), PageEvent.addElement demoA)] demoA
      (by decide) (by decide) (by decide)⟩

/-- C5: concrete three-alert page — A (no danger marker), B (danger marker),
C (no danger marker).  After the ready event at time 0 and the 4000-unit delay,
A and C have each received exactly one close invocation and B none; just
before the deadline (time 3999) nothing has fired yet. -/
theorem c5_three_alert_scenario :
    (fireDue benignEnv (domContentLoadedHandler demoDoc 0) 4000).closeCalls.count demoA = 1
    ∧ (fireDue benignEnv (domContentLoadedHandler demoDoc 0) 4000).closeCalls.count demoC = 1
    ∧ (fireDue benignEnv (domContentLoadedHandler demoDoc 0) 4000).closeCalls.count demoB = 0
    ∧ (fireDue benignEnv (domContentLoadedHandler demoDoc 0) 3999).closeCalls = [] := by
  decide

/-- C6: eligibility is decided once, at ready time.  Firing the timers ignores
the fire-time class state of the page (the callback closed over the element and
never re-reads `classList`), and an element is scheduled precisely when, at
ready time, it is in the document with the `alert` token and without the
`alert-danger` token. -/
theorem c6_eligibility_frozen_at_ready_time
    (env : Env) (doc : Document) (now fire : Nat)
    (f g : Nat → List String) (el : Element) :
    fireDueInDoc env (domContentLoadedHandler doc now) f fire
      = fireDueInDoc env (domContentLoadedHandler doc now) g fire
    ∧ (el ∈ scheduledElems doc now ↔
        el ∈ doc ∧ el.classListContains "alert" = true
          ∧ el.classListContains "alert-danger" = false) := by
  refine ⟨rfl, ?_⟩
  rw [scheduledElems, List.mem_map]
  constructor
  · rintro ⟨t, ht, rfl⟩
    rcases mem_handler.mp ht with ⟨h1, h2, h3, -, -⟩
    exact ⟨h1, h2, h3⟩
  · rintro ⟨h1, h2, h3⟩
    exact ⟨{ elem := el, scheduledAt := now, delay := 4000 },
      mem_handler.mpr ⟨h1, h2, h3, rfl, rfl⟩, rfl⟩

/-- C7: a scheduled dismissal cannot be aborted.  Along any event trace the
set of registered timers only grows (the script keeps no `setTimeout` handle
and never cancels), and when the clock passes a timer's deadline its callback
runs in every environment — including ones where the close call fails because
the alert was already dismissed — with the failure swallowed, never halting
the loop. -/
theorem c7_scheduled_dismissal_cannot_be_aborted :
    (∀ (st : ScriptState) (tr : List (Nat × PageEvent)),
        ∃ extra, (runTrace st tr).timers = st.timers ++ extra)
    ∧ ∀ (env : Env) (timers : List Timer) (now : Nat),
        (fireDue env timers now).processed
          = (timers.filter (fun t => t.fireAt ≤ now)).map (fun t => t.elem)
        ∧ (fireDue env timers now).halted = false :=
  ⟨runTrace_timers_mono,
    fun env timers now =>
      ⟨runLoop_processed env (timers.filter (fun t => t.fireAt ≤ now)),
        runLoop_halted_false env (timers.filter (fun t => t.fireAt ≤ now))⟩⟩

/-- C8: the component runs exactly once per page load, at the ready event.
Before the (unique) ready event no timer has been registered, and the events
after it register nothing further. -/
theorem c8_runs_exactly_once_at_ready
    (initDoc : Document) (pre post : List (Nat × PageEvent)) (r : Nat)
    (hpre : ∀ p ∈ pre, p.2 ≠ PageEvent.domContentLoaded)
    (hpost : ∀ p ∈ post, p.2 ≠ PageEvent.domContentLoaded) :
    (runTrace { doc := initDoc, timers := [] } pre).timers = []
    ∧ (runTrace { doc := initDoc, timers := [] }
          (pre ++ (r, PageEvent.domContentLoaded) :: post)).timers
        = (runTrace { doc := initDoc, timers := [] }
            (pre ++ [(r, PageEvent.domContentLoaded)])).timers := by
  refine ⟨runTrace_timers_of_no_ready _ _ hpre, ?_⟩
  rw [runTrace_append_tr, runTrace_append_tr, runTrace_cons,
    runTrace_timers_of_no_ready _ _ hpost]
  rfl

theorem c8_witness :
    ((∀ p ∈ [((0 : Nat), PageEvent.addElement demoA)],
        p.2 ≠ PageEvent.domContentLoaded)
      ∧ (∀ p ∈ [((9 : Nat), PageEvent.addElement demoC)],
          p.2 ≠ PageEvent.domContentLoaded))
    ∧ ((runTrace { doc := [], timers := [] }
          [((0 : Nat), PageEvent.addElement demoA)]).timers = []
        ∧ (runTrace { doc := [], timers := [] }
              ([((0 : Nat), PageEvent.addElement demoA)]
                ++ (1, PageEvent.domContentLoaded)
                  :: [((9 : Nat), PageEvent.addElement demoC)])).timers
            = (runTrace { doc := [], timers := [] }
                ([((0 : Nat), PageEvent.addElement demoA)]
                  ++ [((1 : Nat), PageEvent.domContentLoaded)])).timers) :=
  ⟨⟨by decide, by decide⟩,
    c8_runs_exactly_once_at_ready [] [((0 : Nat), PageEvent.addElement demoA)]
      [((9 : Nat), PageEvent.addElement demoC)] 1 (by decide) (by decide)⟩

/-- C9: scheduling is deterministic and a pure function of the alert elements
present at ready time: two documents agreeing on the result of the alert query
get identical schedules, and every registered timer carries the same fixed
4000-unit delay. -/
theorem c9_scheduling_deterministic
    (doc1 doc2 : Document) (now : Nat)
    (h : querySelectorAll doc1 "alert" = querySelectorAll doc2 "alert") :
    domContentLoadedHandler doc1 now = domContentLoadedHandler doc2 now
    ∧ ∀ t ∈ domContentLoadedHandler doc1 now, t.delay = 4000 := by
  constructor
  · unfold domContentLoadedHandler
    rw [h]
  · intro t ht
    exact (mem_handler.mp ht).2.2.2.2

theorem c9_witness :
    (querySelectorAll demoDoc "alert"
        = querySelectorAll (demoDoc ++ [{ id := 3, classes := ["footer"] }]) "alert")
    ∧ (domContentLoadedHandler demoDoc 0
          = domContentLoadedHandler (demoDoc ++ [{ id := 3, classes := ["footer"] }]) 0
        ∧ ∀ t ∈ domContentLoadedHandler demoDoc 0, t.delay = 4000) :=
  ⟨by decide,
    c9_scheduling_deterministic demoDoc
      (demoDoc ++ [{ id := 3, classes := ["footer"] }]) 0 (by decide)⟩

/-- C10: the danger exclusion is an exact class-token match on
`alert-danger`.  An alert element whose second class token is any other
string — including near-misses like `alert-warning` or a strict superstring
like `alert-danger-custom` — is treated as non-danger and gets scheduled. -/
theorem c10_danger_exclusion_is_exact_token_match
    (c : String) (now : Nat) (hc : c ≠ "alert-danger") :
    domContentLoadedHandler [{ id := 0, classes := ["alert", c] }] now
      = [{ elem := { id := 0, classes := ["alert", c] },
           scheduledAt := now, delay := 4000 }] := by
  have halert :
      ({ id := 0, classes := ["alert", c] } : Element).classListContains "alert"
        = true := rfl
  have hdanger :
      ({ id := 0, classes := ["alert", c] } : Element).classListContains "alert-danger"
        = false := by
    rw [Element.classListContains, Bool.eq_false_iff]
    intro h
    rcases List.mem_cons.mp (List.elem_iff.mp h) with h1 | h1
    · exact absurd h1 (by decide)
    · exact hc (List.mem_singleton.mp h1).symm
  unfold domContentLoadedHandler querySelectorAll
  simp [halert, hdanger]

theorem c10_witness :
    ("alert-danger-custom" ≠ "alert-danger"
      ∧ domContentLoadedHandler
            [{ id := 0, classes := ["alert", "alert-danger-custom"] }] 0
          = [{ elem := { id := 0, classes := ["alert", "alert-danger-custom"] },
               scheduledAt := 0, delay := 4000 }])
    ∧ ("alert-warning" ≠ "alert-danger"
      ∧ domContentLoadedHandler
            [{ id := 0, classes := ["alert", "alert-warning"] }] 0
          = [{ elem := { id := 0, classes := ["alert", "alert-warning"] },
               scheduledAt := 0, delay := 4000 }]) :=
  ⟨⟨by decide,
      c10_danger_exclusion_is_exact_token_match "alert-danger-custom" 0 (by decide)⟩,
    ⟨by decide,
      c10_danger_exclusion_is_exact_token_match "alert-warning" 0 (by decide)⟩⟩
